import Mathlib

/-!
Verification of the omnivault encrypted store (package `internal/store`,
files `crypto.go` and `encrypted.go`) and the daemon secret handler
(package `internal/daemon`, `server.go`), as a shallow embedding.

Modelling conventions, stated once:

* Byte strings (Go `[]byte` and Go `string` used as raw bytes, e.g.
  passwords and derived keys) are `List Nat`.  Paths stay Lean `String`
  (Go compares and sorts them bytewise; UTF-8 byte order coincides with
  code-point order, which is the order of Lean `String`).
* Time (`time.Time`) is `Nat`.  Each operation receives the value of
  `time.Now()` as an explicit `now` argument.
* Argon2id key derivation is modelled symbolically: `deriveKeyBytes` is a
  length-prefixed (hence injective) encoding of `(password, salt, params)`.
  AES-256-GCM is modelled as an ideal authenticated cipher: a ciphertext
  records its nonce, the key it was sealed under and the plaintext, and
  decryption succeeds exactly when the keys agree.  Base64 encoding is a
  bijection and is collapsed.  JSON serialization of a `Secret` is
  injective and is collapsed: the plaintext type is a sum of raw bytes
  (the verification magic) and `Secret` records, which are disjoint by
  construction (the magic `"omnivault-v1"` is not valid JSON).
* The CSPRNG is a counter `rng : Nat`; the `n`-th read yields `n` and
  succeeds iff `env.randOk n` (fault injection for `rand.Read` errors).
* The filesystem is an explicit map from path to typed file contents,
  with a set of paths whose writes fail (fault injection for I/O errors)
  and a trace of the syscalls performed (`MkdirAll`, `WriteFile`,
  `Rename`), which is what the atomic-save claim is about.
* Go nil-pointer dereference is a distinguished outcome `GoResult.panics`,
  distinct from an ordinary returned error.
* A Go `map[string]T` is an association list with distinct keys; map
  well-formedness (key `Nodup`) is carried as a hypothesis where needed.
* `Metadata.Extra` (`map[string]any`) is untyped in Go and not involved
  in any claim; it is omitted.  Both `time.Now()` calls inside
  `Initialize` are given the same `now`.
-/

/-- Go byte strings. -/
abbrev Bytes := List Nat

/-- Argon2Params from crypto.go. -/
structure Argon2Params where
  time : Nat
  memory : Nat
  threads : Nat
  keyLen : Nat
deriving DecidableEq, Repr

/-- DefaultArgon2Params from crypto.go. -/
def DefaultArgon2Params : Argon2Params := ⟨3, 65536, 4, 32⟩

/-- The verification magic constant, the UTF-8 bytes of "omnivault-v1". -/
def verificationMagic : Bytes := [111, 109, 110, 105, 118, 97, 117, 108, 116, 45, 118, 49]

/-- Argon2id modelled as an injective (length-prefixed) encoding of
password, salt and parameters; same inputs give the same key bit-for-bit. -/
def deriveKeyBytes (password : Bytes) (salt : Bytes) (params : Argon2Params) : Bytes :=
  password.length :: (password ++ (salt ++ [params.time, params.memory, params.threads, params.keyLen]))

/-- The zeroization loop of Crypto.Lock and VerifyPassword: every byte of
the buffer is overwritten with zero. -/
def zeroize (b : Bytes) : Bytes := b.map (fun _ => 0)

/-- Metadata of vault.Secret (types.go).  `Extra` is omitted, see header. -/
structure SecretMeta where
  createdAt : Option Nat
  modifiedAt : Option Nat
  expiresAt : Option Nat
  version : String
  tags : List (String × String)
  labels : List String
  provider : String
  path : String
deriving DecidableEq, Repr

/-- vault.Secret (types.go). -/
structure Secret where
  value : String
  valueBytes : Bytes
  fields : List (String × String)
  metadata : SecretMeta
deriving DecidableEq, Repr

/-- Plaintexts that are encrypted in the program: raw byte strings (the
verification magic) and JSON-marshalled Secrets (serialization collapsed,
being injective).  The two classes are disjoint in the source: the magic
is not valid JSON and never unmarshals into a Secret. -/
inductive Plaintext where
  | raw (bs : Bytes)
  | sec (s : Secret)
deriving DecidableEq, Repr

/-- An AES-256-GCM sealed blob `nonce ∥ ciphertext ∥ tag`, base64-encoded:
modelled ideally as the nonce, the sealing key and the plaintext. -/
structure Ciphertext where
  nonce : Nat
  key : Bytes
  plain : Plaintext
deriving DecidableEq, Repr

/-- Crypto from crypto.go: params, salt, and the derived key when unlocked. -/
structure Crypto where
  params : Argon2Params
  salt : Bytes
  key : Option Bytes
deriving DecidableEq, Repr

/-- Error values returned by the embedded operations, tagged by the Go
error message or wrap site. -/
inductive Err where
  | vaultLocked
  | invalidPassword
  | invalidCurrentPassword
  | vaultAlreadyExists
  | vaultMissing
  | secretNotFound
  | decryptFailed
  | unmarshalFailed
  | cryptoCreateFailed
  | verificationCreateFailed
  | encryptFailed
  | decryptSecretFailed (path : String)
  | reencryptSecretFailed (path : String)
  | saveMetaFailed
  | saveDataFailed
  | loadMetaFailed
  | loadDataFailed
  | ioError
deriving DecidableEq, Repr

/-- Outcome of a Go call: a value, a returned error, or a runtime panic
(nil-pointer dereference). -/
inductive GoResult (α : Type) where
  | ok (a : α)
  | err (e : Err)
  | panics
deriving DecidableEq, Repr

/-- Fault-injection environment: whether the n-th CSPRNG read succeeds. -/
structure Env where
  randOk : Nat → Bool

/-- The salt produced by the n-th CSPRNG read (32 bytes). -/
def saltOf (r : Nat) : Bytes := r :: List.replicate 31 0

/-- NewCrypto from crypto.go: generates a 32-byte random salt when none is
supplied; rejects salts shorter than 16 bytes. -/
def Crypto.new (saltArg : Option Bytes) (params : Argon2Params) (env : Env) (rng : Nat) :
    Except Err Crypto × Nat :=
  match saltArg with
  | none =>
      if env.randOk rng then
        let salt := saltOf rng
        if salt.length < 16 then (.error .cryptoCreateFailed, rng + 1)
        else (.ok ⟨params, salt, none⟩, rng + 1)
      else (.error .cryptoCreateFailed, rng + 1)
  | some salt =>
      if salt.length < 16 then (.error .cryptoCreateFailed, rng)
      else (.ok ⟨params, salt, none⟩, rng)

/-- Crypto.DeriveKey from crypto.go. -/
def Crypto.deriveKey (c : Crypto) (password : Bytes) : Bytes :=
  deriveKeyBytes password c.salt c.params

/-- Crypto.Unlock from crypto.go: derives and stores the key. -/
def Crypto.unlock (c : Crypto) (password : Bytes) : Crypto :=
  { c with key := some (c.deriveKey password) }

/-- Crypto.IsUnlocked from crypto.go. -/
def Crypto.isUnlocked (c : Crypto) : Bool := c.key.isSome

/-- Crypto.Lock from crypto.go.  Besides the new session state, returns
the final contents of the released key buffer (after the zeroization
loop), `none` when there was no buffer to release. -/
def Crypto.lockWithBuf (c : Crypto) : Crypto × Option Bytes :=
  match c.key with
  | none => ({ c with key := none }, none)
  | some b => ({ c with key := none }, some (zeroize b))

/-- Crypto.Lock, session-state part. -/
def Crypto.lock (c : Crypto) : Crypto := c.lockWithBuf.1

/-- Crypto.Encrypt / Crypto.EncryptString from crypto.go: requires an
unlocked session, draws a fresh random nonce (which may fail), seals. -/
def Crypto.encrypt (c : Crypto) (env : Env) (rng : Nat) (plain : Plaintext) :
    Except Err Ciphertext × Nat :=
  match c.key with
  | none => (.error .vaultLocked, rng)
  | some k =>
      if env.randOk rng then (.ok ⟨rng, k, plain⟩, rng + 1)
      else (.error .encryptFailed, rng + 1)

/-- Crypto.Decrypt / Crypto.DecryptString from crypto.go: requires an
unlocked session; AEAD-open fails unless the sealing key matches. -/
def Crypto.decrypt (c : Crypto) (ct : Ciphertext) : Except Err Plaintext :=
  match c.key with
  | none => .error .vaultLocked
  | some k => if ct.key = k then .ok ct.plain else .error .decryptFailed

/-- Crypto.VerifyPassword from crypto.go: derives a temporary key, tries
to open the verification blob, constant-time-compares the plaintext to
the magic; every failure path returns false, never an error.  `none`
stands for a blob string that does not decode to a well-formed sealed
value (bad base64, too short, or the zero value). -/
def Crypto.verifyPassword (c : Crypto) (password : Bytes) (blob : Option Ciphertext) : Bool :=
  match blob with
  | none => false
  | some b => b.key == c.deriveKey password && b.plain == Plaintext.raw verificationMagic

/-- Crypto.CreateVerificationBlob from crypto.go. -/
def Crypto.createVerificationBlob (c : Crypto) (env : Env) (rng : Nat) :
    Except Err Ciphertext × Nat :=
  c.encrypt env rng (Plaintext.raw verificationMagic)

/-- VaultMeta from encrypted.go.  `verification` is `none` when the field
holds a string that is not a well-formed sealed blob. -/
structure VaultMeta where
  version : Nat
  createdAt : Nat
  salt : Bytes
  argon2Params : Argon2Params
  verification : Option Ciphertext
deriving DecidableEq, Repr

/-- VaultData from encrypted.go. -/
structure VaultData where
  secrets : List (String × Ciphertext)
deriving DecidableEq, Repr

/-- Typed contents of the two vault files; the `Option` is the Go nil
pointer, which `json.Marshal` writes as `null`. -/
inductive FileVal where
  | metaF (m : Option VaultMeta)
  | dataF (d : Option VaultData)
deriving DecidableEq, Repr

/-- Filesystem syscalls performed by the store. -/
inductive FsEvent where
  | mkdirAll (dir : String)
  | writeFile (path : String) (v : FileVal)
  | rename (src : String) (dst : String)
deriving DecidableEq, Repr

/-- Filesystem state: files, paths whose writes fail (fault injection),
and the trace of syscalls performed so far. -/
structure Fs where
  files : List (String × FileVal)
  failWrites : List String
  trace : List FsEvent
deriving DecidableEq, Repr

/-- Association-list lookup (Go map index). -/
def lookupA {α : Type} (l : List (String × α)) (k : String) : Option α :=
  match l with
  | [] => none
  | e :: rest => if e.1 = k then some e.2 else lookupA rest k

/-- Association-list update (Go map assignment). -/
def setA {α : Type} (l : List (String × α)) (k : String) (v : α) : List (String × α) :=
  match l with
  | [] => [(k, v)]
  | e :: rest => if e.1 = k then (k, v) :: rest else e :: setA rest k v

/-- Association-list removal (Go delete builtin; missing key is a no-op). -/
def eraseA {α : Type} (l : List (String × α)) (k : String) : List (String × α) :=
  match l with
  | [] => []
  | e :: rest => if e.1 = k then rest else e :: eraseA rest k

/-- Model of filepath.Dir for slash-separated paths: everything before
the last separator, "." when there is none. -/
def dirOf (p : String) : String :=
  let rev := p.data.reverse
  let rest := rev.dropWhile (fun c => decide (c ≠ '/'))
  match rest with
  | [] => "."
  | _ :: tail => String.mk tail.reverse

def Fs.lookup (fs : Fs) (path : String) : Option FileVal :=
  (lookupA fs.files path)

/-- os.WriteFile: records the attempt in the trace; fails for fault-injected
paths, otherwise replaces the file contents. -/
def Fs.writeFile (fs : Fs) (path : String) (v : FileVal) : Except Err Unit × Fs :=
  let fs1 : Fs := { fs with trace := fs.trace ++ [FsEvent.writeFile path v] }
  if path ∈ fs.failWrites then (.error .ioError, fs1)
  else (.ok (), { fs1 with files := setA fs1.files path v })

/-- os.MkdirAll: recorded in the trace; never fails in the model (no claim
involves directory-creation failure). -/
def Fs.mkdirAll (fs : Fs) (dir : String) : Fs :=
  { fs with trace := fs.trace ++ [FsEvent.mkdirAll dir] }

/-- EncryptedStore from encrypted.go.  The `Option`s are the Go nil
pointers of the corresponding fields. -/
structure EncryptedStore where
  vaultPath : String
  metaPath : String
  crypto : Option Crypto
  meta : Option VaultMeta
  data : Option VaultData
  dirty : Bool
  autoSave : Bool
  unlockTime : Nat
deriving DecidableEq, Repr

/-- NewEncryptedStore from encrypted.go. -/
def NewEncryptedStore (vaultPath metaPath : String) : EncryptedStore :=
  ⟨vaultPath, metaPath, none, none, none, false, true, 0⟩

/-- EncryptedStore.VaultExists: the metadata file exists on disk. -/
def EncryptedStore.vaultExists (s : EncryptedStore) (fs : Fs) : Bool :=
  (fs.lookup s.metaPath).isSome

/-- EncryptedStore.isLockedUnsafe from encrypted.go. -/
def EncryptedStore.isLockedUnsafe (s : EncryptedStore) : Bool :=
  match s.crypto with
  | none => true
  | some c => !c.isUnlocked

/-- EncryptedStore.saveMeta from encrypted.go: MkdirAll on the parent,
marshal the metadata, WriteFile. -/
def EncryptedStore.saveMeta (s : EncryptedStore) (fs : Fs) : Except Err Unit × Fs :=
  let fs1 := fs.mkdirAll (dirOf s.metaPath)
  fs1.writeFile s.metaPath (FileVal.metaF s.meta)

/-- EncryptedStore.loadMeta from encrypted.go: ReadFile then unmarshal.
Go json.Unmarshal is structural: `null` or a JSON object of another shape
leaves the zero VaultMeta (whose verification string is not a well-formed
blob). -/
def EncryptedStore.loadMeta (s : EncryptedStore) (fs : Fs) : Except Err VaultMeta :=
  match fs.lookup s.metaPath with
  | none => .error .loadMetaFailed
  | some (FileVal.metaF (some m)) => .ok m
  | some (FileVal.metaF none) => .ok ⟨0, 0, [], ⟨0, 0, 0, 0⟩, none⟩
  | some (FileVal.dataF _) => .ok ⟨0, 0, [], ⟨0, 0, 0, 0⟩, none⟩

/-- EncryptedStore.saveData from encrypted.go: MkdirAll on the parent,
marshal the data, WriteFile to the vault path, clear the dirty flag on
success.  No temporary file and no rename. -/
def EncryptedStore.saveData (s : EncryptedStore) (fs : Fs) :
    Except Err Unit × EncryptedStore × Fs :=
  let fs1 := fs.mkdirAll (dirOf s.vaultPath)
  match fs1.writeFile s.vaultPath (FileVal.dataF s.data) with
  | (.error e, fs2) => (.error e, s, fs2)
  | (.ok _, fs2) => (.ok (), { s with dirty := false }, fs2)

/-- EncryptedStore.loadData from encrypted.go: a missing file is a fresh
empty vault; a nil secrets map is replaced by an empty one. -/
def EncryptedStore.loadData (s : EncryptedStore) (fs : Fs) : Except Err VaultData :=
  match fs.lookup s.vaultPath with
  | none => .ok ⟨[]⟩
  | some (FileVal.dataF (some d)) => .ok d
  | some (FileVal.dataF none) => .ok ⟨[]⟩
  | some (FileVal.metaF _) => .ok ⟨[]⟩

/-- Result of a state-changing store operation: the Go return value, the
store and filesystem afterwards, the CSPRNG counter, and the final
contents of any key buffers released (zeroized) during the call. -/
structure OpResult (α : Type) where
  res : GoResult α
  store : EncryptedStore
  fs : Fs
  rng : Nat
  released : List Bytes
deriving Repr

def optToList (b : Option Bytes) : List Bytes :=
  match b with
  | none => []
  | some x => [x]

/-- EncryptedStore.Initialize from encrypted.go. -/
def EncryptedStore.initVault (s : EncryptedStore) (fs : Fs) (env : Env) (rng : Nat)
    (now : Nat) (password : Bytes) : OpResult Unit :=
  if s.vaultExists fs then ⟨.err .vaultAlreadyExists, s, fs, rng, []⟩
  else
    match Crypto.new none DefaultArgon2Params env rng with
    | (.error _, rng1) => ⟨.err .cryptoCreateFailed, s, fs, rng1, []⟩
    | (.ok crypto0, rng1) =>
      let crypto1 := crypto0.unlock password
      match crypto1.createVerificationBlob env rng1 with
      | (.error _, rng2) =>
          let lk := crypto1.lockWithBuf
          ⟨.err .verificationCreateFailed, s, fs, rng2, optToList lk.2⟩
      | (.ok verification, rng2) =>
          let meta : VaultMeta := ⟨1, now, crypto1.salt, crypto1.params, some verification⟩
          let s1 : EncryptedStore :=
            { s with meta := some meta, data := some ⟨[]⟩, crypto := some crypto1,
                     unlockTime := now }
          match s1.saveMeta fs with
          | (.error _, fs1) => ⟨.err .saveMetaFailed, s1, fs1, rng2, []⟩
          | (.ok _, fs1) =>
            match s1.saveData fs1 with
            | (.error _, s2, fs2) => ⟨.err .saveDataFailed, s2, fs2, rng2, []⟩
            | (.ok _, s2, fs2) => ⟨.ok (), s2, fs2, rng2, []⟩

/-- EncryptedStore.Unlock from encrypted.go.  loadMeta assigns s.meta even
when the subsequent password check fails; the session is built from the
persisted salt and params; on a data-load failure the fresh session is
locked and discarded. -/
def EncryptedStore.unlock (s : EncryptedStore) (fs : Fs) (env : Env) (rng : Nat)
    (now : Nat) (password : Bytes) : OpResult Unit :=
  if s.vaultExists fs = false then ⟨.err .vaultMissing, s, fs, rng, []⟩
  else
    match s.loadMeta fs with
    | .error _ => ⟨.err .loadMetaFailed, s, fs, rng, []⟩
    | .ok m =>
      let sM := { s with meta := some m }
      match Crypto.new (some m.salt) m.argon2Params env rng with
      | (.error _, rng1) => ⟨.err .cryptoCreateFailed, sM, fs, rng1, []⟩
      | (.ok crypto0, rng1) =>
        if crypto0.verifyPassword password m.verification = false then
          ⟨.err .invalidPassword, sM, fs, rng1, []⟩
        else
          let crypto1 := crypto0.unlock password
          let s1 := { sM with crypto := some crypto1, unlockTime := now }
          match s1.loadData fs with
          | .error _ =>
              let lk := crypto1.lockWithBuf
              ⟨.err .loadDataFailed, { s1 with crypto := none }, fs, rng1, optToList lk.2⟩
          | .ok d => ⟨.ok (), { s1 with data := some d }, fs, rng1, []⟩

/-- Shared tail of EncryptedStore.Lock: zeroize and drop the session,
drop the decrypted data, clear the dirty flag. -/
def EncryptedStore.lockFinish (s : EncryptedStore) (fs : Fs) (rng : Nat) (c : Crypto) :
    OpResult Unit :=
  let lk := c.lockWithBuf
  ⟨.ok (), { s with crypto := none, data := none, dirty := false }, fs, rng, optToList lk.2⟩

/-- EncryptedStore.Lock from encrypted.go: a nil session is a successful
no-op; dirty data is saved first, and a save failure aborts the lock. -/
def EncryptedStore.lock (s : EncryptedStore) (fs : Fs) (rng : Nat) : OpResult Unit :=
  match s.crypto with
  | none => ⟨.ok (), s, fs, rng, []⟩
  | some c =>
    if s.dirty then
      match s.saveData fs with
      | (.error _, s1, fs1) => ⟨.err .saveDataFailed, s1, fs1, rng, []⟩
      | (.ok _, s1, fs1) => EncryptedStore.lockFinish s1 fs1 rng c
    else EncryptedStore.lockFinish s fs rng c

/-- EncryptedStore.Get from encrypted.go.  A raw (non-Secret) plaintext
fails json.Unmarshal.  Dereferencing a nil data pointer panics. -/
def EncryptedStore.get (s : EncryptedStore) (path : String) : GoResult Secret :=
  if s.isLockedUnsafe then .err .vaultLocked
  else
    match s.crypto, s.data with
    | some c, some d =>
      match lookupA d.secrets path with
      | none => .err .secretNotFound
      | some encrypted =>
        match c.decrypt encrypted with
        | .error _ => .err .decryptFailed
        | .ok (Plaintext.raw _) => .err .unmarshalFailed
        | .ok (Plaintext.sec sec) => .ok sec
    | _, _ => .panics

/-- The timestamp stamping at the head of EncryptedStore.Set: CreatedAt
is set only when absent, ModifiedAt always.  Go mutates the caller's
Secret through the pointer; the result is the caller-visible record. -/
def stampTimes (secret : Secret) (now : Nat) : Secret :=
  let created := match secret.metadata.createdAt with
    | none => some now
    | some t => some t
  { secret with metadata :=
      { secret.metadata with createdAt := created, modifiedAt := some now } }

/-- Result of EncryptedStore.Set: as OpResult, plus the caller's Secret
after the call (Set writes the timestamps through the caller's pointer). -/
structure SetResult where
  res : GoResult Unit
  store : EncryptedStore
  fs : Fs
  rng : Nat
  callerSecret : Secret
deriving Repr

/-- EncryptedStore.Set from encrypted.go. -/
def EncryptedStore.set (s : EncryptedStore) (fs : Fs) (env : Env) (rng : Nat)
    (now : Nat) (path : String) (secret : Secret) : SetResult :=
  if s.isLockedUnsafe then ⟨.err .vaultLocked, s, fs, rng, secret⟩
  else
    let secret1 := stampTimes secret now
    match s.crypto with
    | none => ⟨.panics, s, fs, rng, secret1⟩
    | some c =>
      match c.encrypt env rng (Plaintext.sec secret1) with
      | (.error e, rng1) => ⟨.err e, s, fs, rng1, secret1⟩
      | (.ok encrypted, rng1) =>
        match s.data with
        | none => ⟨.panics, s, fs, rng1, secret1⟩
        | some d =>
          let s1 := { s with data := some ⟨setA d.secrets path encrypted⟩, dirty := true }
          if s1.autoSave then
            match s1.saveData fs with
            | (.error e, s2, fs1) => ⟨.err e, s2, fs1, rng1, secret1⟩
            | (.ok _, s2, fs1) => ⟨.ok (), s2, fs1, rng1, secret1⟩
          else ⟨.ok (), s1, fs, rng1, secret1⟩

/-- EncryptedStore.Delete from encrypted.go. -/
def EncryptedStore.delete (s : EncryptedStore) (fs : Fs) (rng : Nat) (path : String) :
    OpResult Unit :=
  if s.isLockedUnsafe then ⟨.err .vaultLocked, s, fs, rng, []⟩
  else
    match s.data with
    | none => ⟨.panics, s, fs, rng, []⟩
    | some d =>
      let s1 := { s with data := some ⟨eraseA d.secrets path⟩, dirty := true }
      if s1.autoSave then
        match s1.saveData fs with
        | (.error _, s2, fs1) => ⟨.err .saveDataFailed, s2, fs1, rng, []⟩
        | (.ok _, s2, fs1) => ⟨.ok (), s2, fs1, rng, []⟩
      else ⟨.ok (), s1, fs, rng, []⟩

/-- EncryptedStore.List from encrypted.go: collect the paths with the
requested byte prefix (all of them when the prefix is empty), sort. -/
def EncryptedStore.list (s : EncryptedStore) (pre : String) : GoResult (List String) :=
  if s.isLockedUnsafe then .err .vaultLocked
  else
    match s.data with
    | none => .panics
    | some d =>
      let paths := (d.secrets.map Prod.fst).filter
        (fun path => pre == "" || pre.isPrefixOf path)
      .ok (List.insertionSort (fun a b => a ≤ b) paths)

/-- The re-encryption loop of EncryptedStore.ChangePassword: decrypt each
secret with the old session, encrypt with the new one, stopping at the
first failure. -/
def reencryptSecrets (oldC newC : Crypto) (env : Env) :
    List (String × Ciphertext) → Nat → Except Err (List (String × Ciphertext)) × Nat
  | [], rng => (.ok [], rng)
  | (path, encrypted) :: rest, rng =>
    match oldC.decrypt encrypted with
    | .error _ => (.error (.decryptSecretFailed path), rng)
    | .ok decrypted =>
      match newC.encrypt env rng decrypted with
      | (.error _, rng1) => (.error (.reencryptSecretFailed path), rng1)
      | (.ok reEnc, rng1) =>
        match reencryptSecrets oldC newC env rest rng1 with
        | (.error e, rng2) => (.error e, rng2)
        | (.ok tail, rng2) => (.ok ((path, reEnc) :: tail), rng2)

/-- The commit tail of EncryptedStore.ChangePassword: after the meta,
data and session have been replaced in memory, save the metadata file
and then the data file, failing with the corresponding wrapped error. -/
def EncryptedStore.changePasswordCommit (s1 : EncryptedStore) (fs : Fs) (rng3 : Nat)
    (released : List Bytes) : OpResult Unit :=
  match s1.saveMeta fs with
  | (.error _, fs1) => ⟨.err .saveMetaFailed, s1, fs1, rng3, released⟩
  | (.ok _, fs1) =>
    match s1.saveData fs1 with
    | (.error _, s2, fs2) => ⟨.err .saveDataFailed, s2, fs2, rng3, released⟩
    | (.ok _, s2, fs2) => ⟨.ok (), s2, fs2, rng3, released⟩

/-- EncryptedStore.ChangePassword from encrypted.go.  The method derefs
`s.meta` (argument evaluation), `s.crypto` (inside VerifyPassword) and
`s.data` (the range loop) without nil checks, so a locked store panics.
Only after every secret is re-encrypted are the metadata, the data map
and the session replaced, the old session zeroized, and the files saved. -/
def EncryptedStore.changePassword (s : EncryptedStore) (fs : Fs) (env : Env) (rng : Nat)
    (oldPassword newPassword : Bytes) : OpResult Unit :=
  match s.meta with
  | none => ⟨.panics, s, fs, rng, []⟩
  | some m =>
    match s.crypto with
    | none => ⟨.panics, s, fs, rng, []⟩
    | some c =>
      if c.verifyPassword oldPassword m.verification = false then
        ⟨.err .invalidCurrentPassword, s, fs, rng, []⟩
      else
        match Crypto.new none DefaultArgon2Params env rng with
        | (.error _, rng1) => ⟨.err .cryptoCreateFailed, s, fs, rng1, []⟩
        | (.ok newC0, rng1) =>
          let newC := newC0.unlock newPassword
          match newC.createVerificationBlob env rng1 with
          | (.error _, rng2) =>
            let lk := newC.lockWithBuf
            ⟨.err .verificationCreateFailed, s, fs, rng2, optToList lk.2⟩
          | (.ok verification, rng2) =>
            match s.data with
            | none => ⟨.panics, s, fs, rng2, []⟩
            | some d =>
              match reencryptSecrets c newC env d.secrets rng2 with
              | (.error e, rng3) =>
                let lk := newC.lockWithBuf
                ⟨.err e, s, fs, rng3, optToList lk.2⟩
              | (.ok newSecrets, rng3) =>
                let m1 := { m with salt := newC.salt, argon2Params := newC.params,
                                   verification := some verification }
                let lkOld := c.lockWithBuf
                let s1 := { s with meta := some m1, data := some ⟨newSecrets⟩,
                                   crypto := some newC }
                EncryptedStore.changePasswordCommit s1 fs rng3 (optToList lkOld.2)

/-- SetSecretRequest from the daemon protocol (protocol.go). -/
structure SetSecretRequest where
  value : String
  fields : List (String × String)
  tags : List (String × String)
deriving DecidableEq, Repr

/-- Server.setSecret from server.go: builds a fresh Secret from the
request body (CreatedAt and ModifiedAt absent, only the Tags carried
over) and calls Set.  handleSecret has already checked IsLocked. -/
def Server.setSecret (s : EncryptedStore) (fs : Fs) (env : Env) (rng : Nat)
    (now : Nat) (path : String) (req : SetSecretRequest) : SetResult :=
  let secret : Secret := ⟨req.value, [], req.fields, ⟨none, none, none, "", req.tags, [], "", ""⟩⟩
  s.set fs env rng now path secret

/-- Does a trace contain a direct WriteFile to the target path? -/
def writesDirectly (tr : List FsEvent) (target : String) : Bool :=
  tr.any (fun e => match e with
    | FsEvent.writeFile p _ => p == target
    | _ => false)

/-- Does a trace contain a rename of a sibling file onto the target path? -/
def renamesOnto (tr : List FsEvent) (target : String) : Bool :=
  tr.any (fun e => match e with
    | FsEvent.rename src dst => dst == target && src != target
    | _ => false)

/-- The write-to-temp-then-rename persistence pattern: the target is only
ever produced by renaming a sibling temp file over it, never written
directly. -/
def atomicSavePattern (tr : List FsEvent) (target : String) : Bool :=
  renamesOnto tr target && !(writesDirectly tr target)

/-! ### Helper lemmas and concrete fixtures -/

/-- Looking up a key just written by `setA` returns the written value. -/
theorem lookupA_setA_self {α : Type} (l : List (String × α)) (k : String) (v : α) :
    lookupA (setA l k v) k = some v := by
  induction l with
  | nil => simp [setA, lookupA]
  | cons e rest ih =>
      by_cases h : e.1 = k
      · simp [setA, lookupA, h]
      · simp [setA, lookupA, h, ih]

/-- The symbolic KDF is injective in the password for a fixed salt and
parameters (modelling that distinct passwords derive distinct keys). -/
theorem deriveKeyBytes_inj {p q salt : Bytes} {params : Argon2Params}
    (h : deriveKeyBytes p salt params = deriveKeyBytes q salt params) : p = q := by
  unfold deriveKeyBytes at h
  have hlen : p.length = q.length := by
    exact (List.cons.injEq _ _ _ _).mp h |>.1
  have htail : p ++ (salt ++ [params.time, params.memory, params.threads, params.keyLen])
      = q ++ (salt ++ [params.time, params.memory, params.threads, params.keyLen]) := by
    exact (List.cons.injEq _ _ _ _).mp h |>.2
  exact (List.append_inj htail hlen).1

/-- Every byte of a zeroized buffer is zero and the length is unchanged. -/
theorem zeroize_spec (b : Bytes) :
    (∀ x ∈ zeroize b, x = 0) ∧ (zeroize b).length = b.length := by
  constructor
  · intro x hx
    simp only [zeroize, List.mem_map] at hx
    obtain ⟨a, ha, h0⟩ := hx
    exact h0.symm
  · simp [zeroize]

/-- Inversion of a successful Crypto.encrypt call. -/
theorem encrypt_ok_inv {c : Crypto} {env : Env} {rng : Nat} {pl : Plaintext}
    {ct : Ciphertext} {rng1 : Nat}
    (h : c.encrypt env rng pl = (Except.ok ct, rng1)) :
    c.key = some ct.key ∧ ct.plain = pl ∧ ct.nonce = rng ∧ rng1 = rng + 1 := by
  unfold Crypto.encrypt at h
  cases hk : c.key with
  | none => rw [hk] at h; simp at h
  | some k =>
      rw [hk] at h
      by_cases hr : env.randOk rng = true
      · simp only [hr, if_true, Prod.mk.injEq, Except.ok.injEq] at h
        obtain ⟨hct, hrng⟩ := h
        subst hct
        refine ⟨?_, rfl, rfl, hrng.symm⟩
        simp [hk]
      · simp [hr] at h

/-- Concrete fixture: an eight-byte master password. -/
def demoPw : Bytes := [1, 2, 3, 4, 5, 6, 7, 8]

/-- Concrete fixture: a different eight-byte password. -/
def demoPw2 : Bytes := [9, 9, 9, 9, 9, 9, 9, 9]

/-- Concrete fixture: the vault salt. -/
def demoSalt : Bytes := saltOf 0

/-- Concrete fixture: the key derived from the demo password. -/
def demoKey : Bytes := deriveKeyBytes demoPw demoSalt DefaultArgon2Params

/-- Concrete fixture: an unlocked crypto session for the demo password. -/
def demoCrypto : Crypto := ⟨DefaultArgon2Params, demoSalt, some demoKey⟩

/-- Concrete fixture: the verification blob sealed under the demo key. -/
def demoBlob : Ciphertext := ⟨1, demoKey, Plaintext.raw verificationMagic⟩

/-- Concrete fixture: vault metadata of an initialized vault. -/
def demoMeta : VaultMeta := ⟨1, 0, demoSalt, DefaultArgon2Params, some demoBlob⟩

/-- Concrete fixture: an empty decrypted data map. -/
def demoData : VaultData := ⟨[]⟩

/-- Concrete fixture: the on-disk state of an initialized empty vault. -/
def demoFs : Fs :=
  ⟨[("d/vault.meta", FileVal.metaF (some demoMeta)), ("d/vault.enc", FileVal.dataF (some demoData))],
   [], []⟩

/-- Concrete fixture: the unlocked store over the demo vault. -/
def demoStore : EncryptedStore :=
  ⟨"d/vault.enc", "d/vault.meta", some demoCrypto, some demoMeta, some demoData, false, true, 0⟩

/-- Concrete fixture: an environment whose CSPRNG never fails. -/
def demoEnv : Env := ⟨fun _ => true⟩

/-- Concrete fixture: the demo store after Lock: no session, no decrypted
data, metadata still loaded (exactly what EncryptedStore.Lock leaves). -/
def demoLockedStore : EncryptedStore :=
  ⟨"d/vault.enc", "d/vault.meta", none, some demoMeta, none, false, true, 0⟩

/-! ### C1: persistence of the vault data file -/

/-- C1, counterexample.  The claim states that every saveData persists by
writing a sibling temporary file and renaming it over the target.  On a
concrete store, the syscall trace of saveData contains no rename at all
and writes the target path directly, so the claimed temp-file-then-rename
pattern is false. -/
theorem C1_saveData_not_temp_rename :
    atomicSavePattern ((demoStore.saveData demoFs).2.2.trace) demoStore.vaultPath = false
    ∧ writesDirectly ((demoStore.saveData demoFs).2.2.trace) demoStore.vaultPath = true := by
  constructor <;> rfl

/-- C1, amended.  Every saveData call performs exactly MkdirAll on the
parent directory followed by a single WriteFile of the complete
serialized vault directly to the target path; no temporary file is
written and no rename is performed, so the save is not atomic with
respect to concurrent readers. -/
theorem C1_saveData_direct_write (s : EncryptedStore) (fs : Fs) :
    (s.saveData fs).2.2.trace =
      fs.trace ++ [FsEvent.mkdirAll (dirOf s.vaultPath),
                   FsEvent.writeFile s.vaultPath (FileVal.dataF s.data)] := by
  unfold EncryptedStore.saveData Fs.mkdirAll Fs.writeFile
  by_cases h : s.vaultPath ∈ fs.failWrites <;> simp [h]

/-! ### C3: ChangePassword on a locked store -/

/-- C3, counterexample.  The claim states that change_password invoked on
a Locked store (nil crypto session) completes or fails with an ordinary
error.  On a concrete locked store it instead dereferences the nil
session inside VerifyPassword/DeriveKey and panics. -/
theorem C3_locked_changePassword_not_ordinary :
    (demoLockedStore.changePassword demoFs demoEnv 0 demoPw demoPw2).res = GoResult.panics := by
  rfl

/-- C3, amended.  change_password requires the crypto session to be
present: invoked on any store in the Locked state (crypto is nil), it
dereferences a nil pointer and panics instead of returning an error. -/
theorem C3_locked_changePassword_panics (s : EncryptedStore) (fs : Fs) (env : Env)
    (rng : Nat) (oldPw newPw : Bytes) (h : s.crypto = none) :
    (s.changePassword fs env rng oldPw newPw).res = GoResult.panics := by
  unfold EncryptedStore.changePassword
  cases hm : s.meta <;> simp [hm, h]

/-- C3, witness for the amended theorem at a concrete locked store. -/
theorem C3_locked_changePassword_panics_witness :
    demoLockedStore.crypto = none
    ∧ (demoLockedStore.changePassword demoFs demoEnv 0 demoPw demoPw2).res = GoResult.panics :=
  ⟨rfl, C3_locked_changePassword_panics demoLockedStore demoFs demoEnv 0 demoPw demoPw2 rfl⟩

/-! ### C6: created_at through the daemon write interface -/

/-- C6, failing evaluation.  Two successive PUT /secret/p writes through
the daemon handler at times 1 and 2: the handler passes a fresh Secret
with no CreatedAt each time, so after the second write the stored
created_at is the second write time 2, not the first-insert time 1 that
the claim requires to be preserved. -/
theorem C6_createdAt_reset_on_overwrite :
    (Server.setSecret demoStore demoFs demoEnv 0 1 "p" ⟨"v1", [], []⟩).store.get "p"
      = GoResult.ok ⟨"v1", [], [], ⟨some 1, some 1, none, "", [], [], "", ""⟩⟩
    ∧ (Server.setSecret
        (Server.setSecret demoStore demoFs demoEnv 0 1 "p" ⟨"v1", [], []⟩).store
        (Server.setSecret demoStore demoFs demoEnv 0 1 "p" ⟨"v1", [], []⟩).fs
        demoEnv
        (Server.setSecret demoStore demoFs demoEnv 0 1 "p" ⟨"v1", [], []⟩).rng
        2 "p" ⟨"v2", [], []⟩).store.get "p"
      = GoResult.ok ⟨"v2", [], [], ⟨some 2, some 2, none, "", [], [], "", ""⟩⟩
    ∧ (some 2 : Option Nat) ≠ some 1 := by
  refine ⟨by rfl, by rfl, by simp⟩

/-- saveData never touches the in-memory session or data, only the dirty
flag. -/
theorem saveData_preserves (s : EncryptedStore) (fs : Fs) :
    ((s.saveData fs).2.1).crypto = s.crypto
    ∧ ((s.saveData fs).2.1).data = s.data
    ∧ ((s.saveData fs).2.1).meta = s.meta := by
  unfold EncryptedStore.saveData Fs.writeFile Fs.mkdirAll
  by_cases h : s.vaultPath ∈ fs.failWrites <;> simp [h]

/-- Inversion of a successful NewCrypto call with a generated salt. -/
theorem cryptoNew_none_inv {params : Argon2Params} {env : Env} {rng : Nat}
    {c0 : Crypto} {rng1 : Nat}
    (h : Crypto.new none params env rng = (Except.ok c0, rng1)) :
    c0 = ⟨params, saltOf rng, none⟩ ∧ rng1 = rng + 1 := by
  unfold Crypto.new at h
  by_cases hr : env.randOk rng = true
  · simp only [hr, if_true] at h
    have hlen : ¬ ((saltOf rng).length < 16) := by simp [saltOf]
    rw [if_neg hlen] at h
    simp only [Prod.mk.injEq, Except.ok.injEq] at h
    exact ⟨h.1.symm, h.2.symm⟩
  · simp [hr] at h

/-- On all branches that pass the locked check, Set writes the stamped
timestamps through the caller's Secret pointer. -/
theorem set_callerSecret (s : EncryptedStore) (fs : Fs) (env : Env) (rng now : Nat)
    (path : String) (secret : Secret) (hl : s.isLockedUnsafe = false) :
    (s.set fs env rng now path secret).callerSecret = stampTimes secret now := by
  unfold EncryptedStore.set
  rw [hl]
  simp only [Bool.false_eq_true, if_false]
  cases hc : s.crypto with
  | none => rfl
  | some c =>
      rcases henc : c.encrypt env rng (Plaintext.sec (stampTimes secret now)) with ⟨er, rng1⟩
      cases er with
      | error e => simp [henc]
      | ok ct =>
          simp only [henc]
          cases hd : s.data with
          | none => rfl
          | some d =>
              simp only []
              by_cases hA : s.autoSave = true <;>
                rcases hsv : EncryptedStore.saveData _ fs with ⟨r2, s2, fs2⟩ <;>
                cases r2 <;> simp [hA, hsv]

/-- Successful Set leaves the stamped secret retrievable at the path. -/
theorem set_get_ok (s : EncryptedStore) (fs : Fs) (env : Env) (rng now : Nat)
    (path : String) (secret : Secret)
    (hres : (s.set fs env rng now path secret).res = GoResult.ok ()) :
    (s.set fs env rng now path secret).store.get path =
      GoResult.ok (stampTimes secret now) := by
  unfold EncryptedStore.set at hres ⊢
  by_cases hl : s.isLockedUnsafe = true
  · simp [hl] at hres
  · rw [Bool.not_eq_true] at hl
    rw [hl] at hres ⊢
    simp only [Bool.false_eq_true, if_false] at hres ⊢
    cases hc : s.crypto with
    | none => simp [hc] at hres
    | some c =>
        rw [hc] at hres
        dsimp only at hres ⊢
        rcases henc : c.encrypt env rng (Plaintext.sec (stampTimes secret now)) with ⟨er, rng1⟩
        rw [henc] at hres
        cases er with
        | error e => simp at hres
        | ok ct =>
            obtain ⟨hkey, hplain, hnonce, hrng1⟩ := encrypt_ok_inv henc
            dsimp only at hres ⊢
            cases hd : s.data with
            | none => rw [hd] at hres; simp at hres
            | some d =>
                rw [hd] at hres
                dsimp only at hres ⊢
                by_cases hA : s.autoSave = true
                · rw [if_pos hA] at hres ⊢
                  rcases hsv : EncryptedStore.saveData
                      { s with crypto := some c, data := some ⟨setA d.secrets path ct⟩,
                               dirty := true } fs
                    with ⟨r2, s2, fs2⟩
                  rw [hsv] at hres
                  cases r2 with
                  | error e => simp at hres
                  | ok u =>
                      have hp := saveData_preserves
                        { s with crypto := some c, data := some ⟨setA d.secrets path ct⟩,
                                 dirty := true } fs
                      rw [hsv] at hp
                      obtain ⟨hp1, hp2, hp3⟩ := hp
                      dsimp only at hp1 hp2 ⊢
                      simp [EncryptedStore.get, EncryptedStore.isLockedUnsafe,
                        Crypto.isUnlocked, Crypto.decrypt, hp1, hp2, hc, hkey, hplain,
                        lookupA_setA_self]
                · rw [if_neg hA] at hres ⊢
                  simp [EncryptedStore.get, EncryptedStore.isLockedUnsafe,
                    Crypto.isUnlocked, Crypto.decrypt, hkey, hplain, lookupA_setA_self]

/-- Get on a store whose session pointer is nil fails with the locked
error. -/
theorem get_no_session (s : EncryptedStore) (h : s.crypto = none) (p : String) :
    s.get p = GoResult.err Err.vaultLocked := by
  unfold EncryptedStore.get EncryptedStore.isLockedUnsafe
  simp [h]

/-- Lock on a store whose session pointer is nil is a successful no-op. -/
theorem lock_no_session (s : EncryptedStore) (fs : Fs) (rng : Nat) (h : s.crypto = none) :
    s.lock fs rng = ⟨GoResult.ok (), s, fs, rng, []⟩ := by
  unfold EncryptedStore.lock
  simp [h]

/-- Inversion of a successful store Lock: the session pointer is cleared
and every released key buffer is zero-filled. -/
theorem lock_ok_inv (s : EncryptedStore) (fs : Fs) (rng : Nat)
    (h : (s.lock fs rng).res = GoResult.ok ()) :
    (s.lock fs rng).store.crypto = none
    ∧ ∀ b2 ∈ (s.lock fs rng).released, ∀ x ∈ b2, x = 0 := by
  unfold EncryptedStore.lock at h ⊢
  cases hc : s.crypto with
  | none => simp [hc]
  | some c =>
      rw [hc] at h
      dsimp only at h ⊢
      by_cases hd : s.dirty = true
      · rw [if_pos hd] at h ⊢
        rcases hsv : s.saveData fs with ⟨r2, s1, fs1⟩
        rw [hsv] at h
        cases r2 with
        | error e => simp at h
        | ok u =>
            unfold EncryptedStore.lockFinish
            refine ⟨rfl, ?_⟩
            intro b2 hb2 x hx
            cases hk : c.key with
            | none => simp [Crypto.lockWithBuf, hk, optToList] at hb2
            | some b =>
                rw [Crypto.lockWithBuf] at hb2
                simp only [hk, optToList, List.mem_singleton] at hb2
                subst hb2
                exact (zeroize_spec b).1 x hx
      · rw [if_neg hd] at h ⊢
        unfold EncryptedStore.lockFinish
        refine ⟨rfl, ?_⟩
        intro b2 hb2 x hx
        cases hk : c.key with
        | none => simp [Crypto.lockWithBuf, hk, optToList] at hb2
        | some b =>
            rw [Crypto.lockWithBuf] at hb2
            simp only [hk, optToList, List.mem_singleton] at hb2
            subst hb2
            exact (zeroize_spec b).1 x hx

/-! ### C7: lock zeroization and locked-error behaviour -/

/-- C7.  Crypto.Lock overwrites every byte of the held key buffer with
zero (same length) before releasing it and clears the key; a second lock
is a no-op that releases nothing; encrypt and decrypt on the locked
session deterministically return the locked error.  At the store level,
after any successful Lock the session pointer is gone, all released key
buffers are zero-filled, every subsequent Get fails with the locked
error, and a second Lock succeeds changing nothing. -/
theorem C7_lock_zeroization (c : Crypto) (b : Bytes) (hb : c.key = some b) :
    (c.lockWithBuf.2 = some (zeroize b)
      ∧ (∀ x ∈ zeroize b, x = 0)
      ∧ (zeroize b).length = b.length)
    ∧ c.lockWithBuf.1.key = none
    ∧ c.lockWithBuf.1.lockWithBuf = (c.lockWithBuf.1, none)
    ∧ (∀ env rng pl, (c.lockWithBuf.1.encrypt env rng pl).1 = Except.error Err.vaultLocked)
    ∧ (∀ ct, c.lockWithBuf.1.decrypt ct = Except.error Err.vaultLocked)
    ∧ (∀ (s : EncryptedStore) (fs : Fs) (rng : Nat),
        (s.lock fs rng).res = GoResult.ok () →
          ((s.lock fs rng).store.crypto = none
            ∧ (∀ b2 ∈ (s.lock fs rng).released, ∀ x ∈ b2, x = 0)
            ∧ (∀ p, (s.lock fs rng).store.get p = GoResult.err Err.vaultLocked)
            ∧ (∀ fs2 rng2, (s.lock fs rng).store.lock fs2 rng2 =
                ⟨GoResult.ok (), (s.lock fs rng).store, fs2, rng2, []⟩))) := by
  refine ⟨⟨?_, (zeroize_spec b).1, (zeroize_spec b).2⟩, ?_, ?_, ?_, ?_, ?_⟩
  · simp [Crypto.lockWithBuf, hb]
  · simp [Crypto.lockWithBuf, hb]
  · simp [Crypto.lockWithBuf, hb]
  · intro env rng pl
    simp [Crypto.lockWithBuf, hb, Crypto.encrypt]
  · intro ct
    simp [Crypto.lockWithBuf, hb, Crypto.decrypt]
  · intro s fs rng h
    obtain ⟨h1, h2⟩ := lock_ok_inv s fs rng h
    exact ⟨h1, h2, fun p => get_no_session _ h1 p,
      fun fs2 rng2 => lock_no_session _ fs2 rng2 h1⟩

/-- C7, witness: the theorem applied to the concrete unlocked demo
session. -/
theorem C7_lock_zeroization_witness :
    demoCrypto.lockWithBuf.2 = some (zeroize demoKey)
    ∧ demoCrypto.lockWithBuf.1.key = none :=
  ⟨(C7_lock_zeroization demoCrypto demoKey rfl).1.1,
   (C7_lock_zeroization demoCrypto demoKey rfl).2.1⟩

/-! ### C9: Set mutates the caller's Secret in place -/

/-- C9.  On every call that passes the locked check, Set overwrites the
caller's secret.Metadata.ModifiedAt with the write time and stamps
CreatedAt when it was nil (keeping it otherwise), leaving the payload
fields untouched; and on success the record stored under the path is
exactly the caller's mutated record, not a private copy. -/
theorem C9_set_mutates_caller (s : EncryptedStore) (fs : Fs) (env : Env) (rng now : Nat)
    (path : String) (secret : Secret) (hl : s.isLockedUnsafe = false) :
    ((s.set fs env rng now path secret).callerSecret.metadata.modifiedAt = some now
      ∧ (s.set fs env rng now path secret).callerSecret.metadata.createdAt =
          some (secret.metadata.createdAt.getD now)
      ∧ (s.set fs env rng now path secret).callerSecret.value = secret.value
      ∧ (s.set fs env rng now path secret).callerSecret.valueBytes = secret.valueBytes
      ∧ (s.set fs env rng now path secret).callerSecret.fields = secret.fields
      ∧ (s.set fs env rng now path secret).callerSecret.metadata.tags = secret.metadata.tags)
    ∧ ((s.set fs env rng now path secret).res = GoResult.ok () →
        (s.set fs env rng now path secret).store.get path =
          GoResult.ok ((s.set fs env rng now path secret).callerSecret)) := by
  have hcs := set_callerSecret s fs env rng now path secret hl
  constructor
  · rw [hcs]
    unfold stampTimes
    cases hca : secret.metadata.createdAt <;> simp [hca]
  · intro hres
    rw [hcs]
    exact set_get_ok s fs env rng now path secret hres

/-- C9, witness: the theorem applied to the concrete demo store. -/
theorem C9_set_mutates_caller_witness :
    (demoStore.set demoFs demoEnv 0 7 "p"
        ⟨"v", [], [], ⟨none, none, none, "", [], [], "", ""⟩⟩).callerSecret.metadata.modifiedAt
      = some 7 :=
  (C9_set_mutates_caller demoStore demoFs demoEnv 0 7 "p"
    ⟨"v", [], [], ⟨none, none, none, "", [], [], "", ""⟩⟩ rfl).1.1

/-! ### C10: Initialize is not atomic on save failure -/

/-- C10.  When Initialize fails at its final save steps (the metadata or
the data write), it returns that error, yet the store is left Unlocked:
the crypto session holding the newly derived key, the new metadata and
the empty secrets mapping all remain resident in memory, with no
rollback. -/
theorem C10_initialize_no_rollback (s : EncryptedStore) (fs : Fs) (env : Env)
    (rng now : Nat) (password : Bytes)
    (h : (s.initVault fs env rng now password).res = GoResult.err Err.saveMetaFailed
       ∨ (s.initVault fs env rng now password).res = GoResult.err Err.saveDataFailed) :
    (s.initVault fs env rng now password).store.crypto =
        some ⟨DefaultArgon2Params, saltOf rng,
              some (deriveKeyBytes password (saltOf rng) DefaultArgon2Params)⟩
    ∧ (s.initVault fs env rng now password).store.isLockedUnsafe = false
    ∧ (∃ m, (s.initVault fs env rng now password).store.meta = some m)
    ∧ (s.initVault fs env rng now password).store.data = some ⟨[]⟩ := by
  unfold EncryptedStore.initVault at h ⊢
  by_cases hv : s.vaultExists fs = true
  · rw [if_pos hv] at h
    rcases h with h | h <;> simp at h
  · rw [if_neg hv] at h ⊢
    rcases hn : Crypto.new none DefaultArgon2Params env rng with ⟨r1, rng1⟩
    rw [hn] at h
    cases r1 with
    | error e => rcases h with h | h <;> simp at h
    | ok c0 =>
        obtain ⟨hc0, hrng1⟩ := cryptoNew_none_inv hn
        subst hc0
        dsimp only at h ⊢
        rcases hbl : Crypto.createVerificationBlob
            (Crypto.unlock ⟨DefaultArgon2Params, saltOf rng, none⟩ password) env rng1
          with ⟨r2, rng2⟩
        rw [hbl] at h
        cases r2 with
        | error e => rcases h with h | h <;> simp at h
        | ok v =>
            dsimp only at h ⊢
            rcases hsm : EncryptedStore.saveMeta _ fs with ⟨r3, fs1⟩
            rw [hsm] at h
            cases r3 with
            | error e =>
                simp [Crypto.unlock, Crypto.deriveKey, EncryptedStore.isLockedUnsafe,
                  Crypto.isUnlocked]
            | ok u =>
                dsimp only at h ⊢
                rcases hsd : EncryptedStore.saveData _ fs1 with ⟨r4, s2, fs2⟩
                rw [hsd] at h
                cases r4 with
                | error e =>
                    have hp := saveData_preserves
                      { s with
                          meta := some ⟨1, now,
                            (Crypto.unlock ⟨DefaultArgon2Params, saltOf rng, none⟩ password).salt,
                            (Crypto.unlock ⟨DefaultArgon2Params, saltOf rng, none⟩ password).params,
                            some v⟩,
                          data := some ⟨[]⟩,
                          crypto := some (Crypto.unlock ⟨DefaultArgon2Params, saltOf rng, none⟩ password),
                          unlockTime := now } fs1
                    rw [hsd] at hp
                    obtain ⟨hp1, hp2, hp3⟩ := hp
                    dsimp only at hp1 hp2 hp3 ⊢
                    simp only [Crypto.unlock, Crypto.deriveKey] at hp1 hp2 hp3 ⊢
                    refine ⟨by rw [hp1], ?_, ⟨_, by rw [hp3]⟩, by rw [hp2]⟩
                    simp [EncryptedStore.isLockedUnsafe, Crypto.isUnlocked, hp1]
                | ok u2 => rcases h with h | h <;> simp at h

/-- C10, witness: a concrete Initialize whose data-file write fails. -/
theorem C10_initialize_no_rollback_witness :
    ((NewEncryptedStore "w/vault.enc" "w/vault.meta").initVault
        ⟨[], ["w/vault.enc"], []⟩ demoEnv 0 5 demoPw).res = GoResult.err Err.saveDataFailed
    ∧ ((NewEncryptedStore "w/vault.enc" "w/vault.meta").initVault
        ⟨[], ["w/vault.enc"], []⟩ demoEnv 0 5 demoPw).store.crypto =
        some ⟨DefaultArgon2Params, saltOf 0,
              some (deriveKeyBytes demoPw (saltOf 0) DefaultArgon2Params)⟩ :=
  ⟨by rfl,
   (C10_initialize_no_rollback (NewEncryptedStore "w/vault.enc" "w/vault.meta")
      ⟨[], ["w/vault.enc"], []⟩ demoEnv 0 5 demoPw (Or.inr (by rfl))).1⟩

/-! ### C8: List ordering -/

/-- C8.  For every unlocked store (with a well-formed secrets map),
list(prefix) returns exactly the stored paths having the requested byte
prefix (all of them when the prefix is empty), duplicate-free and sorted
ascending. -/
theorem C8_list_sorted (s : EncryptedStore) (pre : String) (d : VaultData)
    (h1 : s.isLockedUnsafe = false) (h2 : s.data = some d)
    (h3 : (d.secrets.map Prod.fst).Nodup) :
    ∃ ps, s.list pre = GoResult.ok ps
      ∧ List.Sorted (fun a b => a ≤ b) ps
      ∧ ps.Nodup
      ∧ (∀ x, x ∈ ps ↔ ((∃ ct, (x, ct) ∈ d.secrets)
            ∧ (pre == "" || pre.isPrefixOf x) = true)) := by
  refine ⟨List.insertionSort (fun a b => a ≤ b)
      ((d.secrets.map Prod.fst).filter (fun path => pre == "" || pre.isPrefixOf path)),
    ?_, ?_, ?_, ?_⟩
  · simp [EncryptedStore.list, h1, h2]
  · exact List.sorted_insertionSort (fun a b => a ≤ b) _
  · exact (List.perm_insertionSort (fun a b => a ≤ b) _).nodup_iff.mpr (h3.filter _)
  · intro x
    rw [List.mem_insertionSort, List.mem_filter]
    constructor
    · rintro ⟨hm, hp⟩
      obtain ⟨a, ha, hfst⟩ := List.mem_map.mp hm
      refine ⟨⟨a.2, ?_⟩, hp⟩
      rw [← hfst]
      simpa using ha
    · rintro ⟨⟨ct, hct⟩, hp⟩
      exact ⟨List.mem_map.mpr ⟨(x, ct), hct, rfl⟩, hp⟩

/-- Concrete fixture: a store holding two secrets, for the list witness. -/
def demoStore2 : EncryptedStore :=
  { demoStore with data := some ⟨[("a/1", ⟨0, demoKey, Plaintext.raw []⟩),
                                 ("b/1", ⟨0, demoKey, Plaintext.raw []⟩)]⟩ }

/-- C8, witness: the theorem applied to a concrete two-secret store with
prefix "a/". -/
theorem C8_list_sorted_witness :
    ∃ ps, demoStore2.list "a/" = GoResult.ok ps
      ∧ List.Sorted (fun a b => a ≤ b) ps
      ∧ ps.Nodup
      ∧ (∀ x, x ∈ ps ↔ ((∃ ct, (x, ct) ∈ [("a/1", (⟨0, demoKey, Plaintext.raw []⟩ : Ciphertext)),
              ("b/1", ⟨0, demoKey, Plaintext.raw []⟩)])
            ∧ (("a/" : String) == "" || ("a/" : String).isPrefixOf x) = true)) :=
  C8_list_sorted demoStore2 "a/"
    ⟨[("a/1", ⟨0, demoKey, Plaintext.raw []⟩), ("b/1", ⟨0, demoKey, Plaintext.raw []⟩)]⟩
    rfl rfl (by simp)

/-! ### C4: wrong password -/

/-- C4.  verify_password with any password other than the one the stored
verification blob was sealed under returns false (it is a total Bool
function, never an error); and Unlock with such a password on a locked
store returns the invalid-password error, leaves the store Locked and
retains no derived key material in the store. -/
theorem C4_wrong_password (c0 : Crypto) (pwRight pwWrong : Bytes) (nonce : Nat)
    (s : EncryptedStore) (fs : Fs) (env : Env) (rng now : Nat) (m : VaultMeta)
    (hne : pwWrong ≠ pwRight)
    (hcrypto : s.crypto = none)
    (hmeta : fs.lookup s.metaPath = some (FileVal.metaF (some m)))
    (hsalt : ¬ (m.salt.length < 16))
    (hver : m.verification =
      some ⟨nonce, deriveKeyBytes pwRight m.salt m.argon2Params,
            Plaintext.raw verificationMagic⟩) :
    c0.verifyPassword pwWrong
        (some ⟨nonce, deriveKeyBytes pwRight c0.salt c0.params, Plaintext.raw verificationMagic⟩)
      = false
    ∧ (s.unlock fs env rng now pwWrong).res = GoResult.err Err.invalidPassword
    ∧ (s.unlock fs env rng now pwWrong).store.crypto = none
    ∧ (s.unlock fs env rng now pwWrong).store.isLockedUnsafe = true
    ∧ (s.unlock fs env rng now pwWrong).fs = fs := by
  have hk0 : deriveKeyBytes pwRight c0.salt c0.params ≠ deriveKeyBytes pwWrong c0.salt c0.params :=
    fun hEq => hne (deriveKeyBytes_inj hEq).symm
  have hkm : deriveKeyBytes pwRight m.salt m.argon2Params
      ≠ deriveKeyBytes pwWrong m.salt m.argon2Params :=
    fun hEq => hne (deriveKeyBytes_inj hEq).symm
  refine ⟨?_, ?_⟩
  · simp [Crypto.verifyPassword, Crypto.deriveKey, hk0]
  · have hvp : ∀ cNew : Crypto, cNew.salt = m.salt → cNew.params = m.argon2Params →
        cNew.verifyPassword pwWrong m.verification = false := by
      intro cNew hs hp
      simp [Crypto.verifyPassword, Crypto.deriveKey, hver, hs, hp, hkm]
    have : (s.unlock fs env rng now pwWrong) =
        ⟨GoResult.err Err.invalidPassword, { s with meta := some m }, fs, rng, []⟩ := by
      unfold EncryptedStore.unlock EncryptedStore.vaultExists EncryptedStore.loadMeta
      rw [hmeta]
      simp only [Option.isSome_some, Bool.true_eq_false, if_false]
      unfold Crypto.new
      dsimp only
      rw [if_neg hsalt]
      dsimp only
      rw [hvp ⟨m.argon2Params, m.salt, none⟩ rfl rfl]
      simp
    rw [this]
    exact ⟨rfl, hcrypto, by simp [EncryptedStore.isLockedUnsafe, hcrypto], rfl⟩

/-- C4, witness: the theorem applied to the concrete locked demo vault
and a wrong password. -/
theorem C4_wrong_password_witness :
    (demoLockedStore.unlock demoFs demoEnv 0 3 demoPw2).res = GoResult.err Err.invalidPassword
    ∧ (demoLockedStore.unlock demoFs demoEnv 0 3 demoPw2).store.crypto = none :=
  ⟨(C4_wrong_password demoCrypto demoPw demoPw2 1 demoLockedStore demoFs demoEnv 0 3 demoMeta
      (by decide) rfl rfl (by decide) rfl).2.1,
   (C4_wrong_password demoCrypto demoPw demoPw2 1 demoLockedStore demoFs demoEnv 0 3 demoMeta
      (by decide) rfl rfl (by decide) rfl).2.2.1⟩

/-- An error out of the commit tail can only be a save-stage error. -/
theorem changePasswordCommit_err {s1 : EncryptedStore} {fs : Fs} {rng3 : Nat}
    {rel : List Bytes} {e : Err}
    (h : (EncryptedStore.changePasswordCommit s1 fs rng3 rel).res = GoResult.err e) :
    e = Err.saveMetaFailed ∨ e = Err.saveDataFailed := by
  unfold EncryptedStore.changePasswordCommit at h
  rcases hsm : s1.saveMeta fs with ⟨r4, fs1⟩
  rw [hsm] at h
  cases r4 with
  | error e4 =>
      simp only [GoResult.err.injEq] at h
      exact Or.inl h.symm
  | ok u =>
      dsimp only at h
      rcases hsd : s1.saveData fs1 with ⟨r5, s2, fs2⟩
      rw [hsd] at h
      cases r5 with
      | error e5 =>
          simp only [GoResult.err.injEq] at h
          exact Or.inr h.symm
      | ok u2 => simp at h

/-! ### C2: ChangePassword failure atomicity -/

/-- C2.  For an unlocked store, whenever ChangePassword returns an error
that is not from the final save stage (i.e. old-password verification
failure, session-creation failure, verification-blob creation failure,
or a decrypt/re-encrypt failure on some secret), the store value — its
crypto session, metadata and secrets mapping — and the on-disk files are
unchanged, and every key buffer released (the temporary new session's
key) has been zeroized.  In particular the files are rewritten only
after every secret has been successfully re-encrypted. -/
theorem C2_changePassword_failure_preserves (s : EncryptedStore) (fs : Fs) (env : Env)
    (rng : Nat) (oldPw newPw : Bytes) (c : Crypto) (e : Err)
    (hc : s.crypto = some c) (hunlocked : c.isUnlocked = true)
    (hres : (s.changePassword fs env rng oldPw newPw).res = GoResult.err e)
    (h1 : e ≠ Err.saveMetaFailed) (h2 : e ≠ Err.saveDataFailed) :
    (s.changePassword fs env rng oldPw newPw).store = s
    ∧ (s.changePassword fs env rng oldPw newPw).fs = fs
    ∧ (∀ b ∈ (s.changePassword fs env rng oldPw newPw).released, ∀ x ∈ b, x = 0) := by
  unfold EncryptedStore.changePassword at hres ⊢
  cases hm : s.meta with
  | none => rw [hm] at hres; simp at hres
  | some m =>
      rw [hm] at hres
      rw [hc] at hres ⊢
      dsimp only at hres ⊢
      by_cases hv : c.verifyPassword oldPw m.verification = false
      · rw [if_pos hv] at hres ⊢
        exact ⟨rfl, rfl, by simp⟩
      · rw [if_neg hv] at hres ⊢
        rcases hn : Crypto.new none DefaultArgon2Params env rng with ⟨r1, rng1⟩
        rw [hn] at hres
        cases r1 with
        | error e1 => exact ⟨rfl, rfl, by simp⟩
        | ok newC0 =>
            dsimp only at hres ⊢
            rcases hbl : Crypto.createVerificationBlob (newC0.unlock newPw) env rng1
              with ⟨r2, rng2⟩
            rw [hbl] at hres
            cases r2 with
            | error e2 =>
                refine ⟨rfl, rfl, ?_⟩
                intro b hb x hx
                simp only [Crypto.unlock, Crypto.lockWithBuf, optToList,
                  List.mem_singleton] at hb
                subst hb
                exact (zeroize_spec _).1 x hx
            | ok v =>
                dsimp only at hres ⊢
                cases hd : s.data with
                | none => rw [hd] at hres; simp at hres
                | some d =>
                    rw [hd] at hres
                    dsimp only at hres ⊢
                    rcases hre : reencryptSecrets c (newC0.unlock newPw) env d.secrets rng2
                      with ⟨r3, rng3⟩
                    rw [hre] at hres
                    cases r3 with
                    | error e3 =>
                        refine ⟨rfl, rfl, ?_⟩
                        intro b hb x hx
                        simp only [Crypto.unlock, Crypto.lockWithBuf, optToList,
                          List.mem_singleton] at hb
                        subst hb
                        exact (zeroize_spec _).1 x hx
                    | ok newSecrets =>
                        dsimp only at hres
                        rcases changePasswordCommit_err hres with hE | hE
                        · exact absurd hE h1
                        · exact absurd hE h2

/-- C2, witness: ChangePassword with a wrong old password on the concrete
demo store leaves the store and filesystem untouched. -/
theorem C2_changePassword_failure_preserves_witness :
    (demoStore.changePassword demoFs demoEnv 0 demoPw2 demoPw).store = demoStore
    ∧ (demoStore.changePassword demoFs demoEnv 0 demoPw2 demoPw).fs = demoFs :=
  ⟨(C2_changePassword_failure_preserves demoStore demoFs demoEnv 0 demoPw2 demoPw
      demoCrypto Err.invalidCurrentPassword rfl rfl (by rfl) (by decide) (by decide)).1,
   (C2_changePassword_failure_preserves demoStore demoFs demoEnv 0 demoPw2 demoPw
      demoCrypto Err.invalidCurrentPassword rfl rfl (by rfl) (by decide) (by decide)).2.1⟩

/-! ### C5: init/set/get round-trip -/

/-- C5.  For every password of at least 8 bytes and every path and
secret: after a successful Initialize followed by a successful Set, Get
on the path returns the stored secret — equal in value, value_bytes,
fields and tags — with only the timestamps stamped by Set (modified_at,
and created_at when it was absent). -/
theorem C5_roundtrip (vp mp : String) (fs : Fs) (env : Env) (rng : Nat)
    (pw : Bytes) (path : String) (sec : Secret) (now1 now2 : Nat)
    (hpw : 8 ≤ pw.length)
    (h1 : ((NewEncryptedStore vp mp).initVault fs env rng now1 pw).res = GoResult.ok ())
    (h2 : ((((NewEncryptedStore vp mp).initVault fs env rng now1 pw).store.set
            ((NewEncryptedStore vp mp).initVault fs env rng now1 pw).fs env
            ((NewEncryptedStore vp mp).initVault fs env rng now1 pw).rng
            now2 path sec).res = GoResult.ok ())) :
    ((((NewEncryptedStore vp mp).initVault fs env rng now1 pw).store.set
        ((NewEncryptedStore vp mp).initVault fs env rng now1 pw).fs env
        ((NewEncryptedStore vp mp).initVault fs env rng now1 pw).rng
        now2 path sec).store.get path = GoResult.ok (stampTimes sec now2))
    ∧ (stampTimes sec now2).value = sec.value
    ∧ (stampTimes sec now2).valueBytes = sec.valueBytes
    ∧ (stampTimes sec now2).fields = sec.fields
    ∧ (stampTimes sec now2).metadata.tags = sec.metadata.tags
    ∧ (stampTimes sec now2).metadata.modifiedAt = some now2
    ∧ (sec.metadata.createdAt = none →
        (stampTimes sec now2).metadata.createdAt = some now2)
    ∧ (∀ t, sec.metadata.createdAt = some t →
        (stampTimes sec now2).metadata.createdAt = some t) := by
  refine ⟨set_get_ok _ _ env _ now2 path sec h2, ?_, ?_, ?_, ?_, ?_, ?_, ?_⟩ <;>
    unfold stampTimes <;> cases hca : sec.metadata.createdAt <;> simp [hca]

/-- C5, witness: the round-trip on a concrete vault, password, path and
secret. -/
theorem C5_roundtrip_witness :
    ((((NewEncryptedStore "w/vault.enc" "w/vault.meta").initVault
          ⟨[], [], []⟩ demoEnv 0 5 demoPw).store.set
        ((NewEncryptedStore "w/vault.enc" "w/vault.meta").initVault
          ⟨[], [], []⟩ demoEnv 0 5 demoPw).fs demoEnv
        ((NewEncryptedStore "w/vault.enc" "w/vault.meta").initVault
          ⟨[], [], []⟩ demoEnv 0 5 demoPw).rng
        7 "a/b" ⟨"sv", [3], [("u", "x")], ⟨none, none, none, "", [("t", "1")], [], "", ""⟩⟩).store.get
        "a/b"
      = GoResult.ok (stampTimes
          ⟨"sv", [3], [("u", "x")], ⟨none, none, none, "", [("t", "1")], [], "", ""⟩⟩ 7)) :=
  (C5_roundtrip "w/vault.enc" "w/vault.meta" ⟨[], [], []⟩ demoEnv 0 demoPw "a/b"
    ⟨"sv", [3], [("u", "x")], ⟨none, none, none, "", [("t", "1")], [], "", ""⟩⟩ 5 7
    (by decide) (by rfl) (by rfl)).1
